import Mathlib

/-!
# Verification of the market-sentiment-analyzer pipeline

Shallow embedding of `src/market_sentiment_analyzer.py`: a three-stage
pipeline (stock-code resolution → news retrieval → structured sentiment
extraction).  External behaviour (the HTTP response, the LLM response, the
tracing span machinery) is passed in explicitly as environment values;
Python exceptions are modelled with `Except String`.
-/

namespace MarketSentiment

/-! ## Company directory (`stock_code_lookup`, lines 24-28) -/

/-- The fixed, case-sensitive company-name → ticker table. -/
def stock_code_lookup : List (String × String) :=
  [("Apple Inc", "AAPL"), ("Microsoft", "MSFT"), ("Google", "GOOGL")]

/-- Python `dict.get(key, default)` on an association list. -/
def dictGetD (d : List (String × String)) (key dflt : String) : String :=
  match d.find? (fun p => p.1 == key) with
  | some p => p.2
  | none => dflt

/-! ## News model

A news item models one element of the JSON `news` array; the Python code
reads `item.get("title", "")`, so only the (optional) `title` field matters. -/

structure NewsItem where
  title : Option String
deriving DecidableEq, Repr

/-- `item.get("title", "")`. -/
def NewsItem.getTitle (i : NewsItem) : String := i.title.getD ""

/-- Behaviour of the HTTP request made by `fetch_news` (line 97-100):
`exn` is any exception raised inside the `try` block (network error,
`raise_for_status` on a non-2xx status, malformed JSON body); `ok body`
is a successful parse, where `body = none` models a JSON object without
a `news` key (so `data.get("news", [])` yields `[]`) and `ok (some l)`
a `news` array with items `l`. -/
inductive HttpOutcome where
  | exn (msg : String)
  | ok (newsField : Option (List NewsItem))
deriving DecidableEq, Repr

/-! ## LLM response and structured-output parsing

`analyze_sentiment` runs an LLMChain whose output parser validates the raw
model text against `response_schemas` (lines 37-49).  The parser itself
lives in the langchain library, not in this repository; it is modelled
from the spec (§4.3): each declared field must be present and match its
declared primitive type, and any failure (unparsable JSON, missing field,
wrong type) is a hard error. -/

/-- A primitive JSON field value as classified by the declared schema types:
a string, a list of strings, or a number (`float`). -/
inductive FieldValue where
  | vstr (s : String)
  | vlist (l : List String)
  | vnum (x : ℚ)
deriving DecidableEq

/-- The raw LLM response after the JSON-extraction step: either not
parsable as JSON at all, or a JSON object given as an association list of
field values. -/
inductive LLMResponse where
  | unparsable (msg : String)
  | obj (fields : List (String × FieldValue))
deriving DecidableEq

/-- One declared response schema entry (`ResponseSchema(name=..,
description=.., type=..)`). -/
structure ResponseSchema where
  name : String
  description : String
  type : String
deriving DecidableEq, Repr

/-- The ten declared schema entries (lines 37-48 of the source). -/
def response_schemas : List ResponseSchema :=
  [⟨"company_name", "Name of the company", "string"⟩,
   ⟨"stock_code", "Stock code of the company", "string"⟩,
   ⟨"newsdesc", "Summary of the news", "string"⟩,
   ⟨"sentiment", "Sentiment of the news (Positive/Negative/Neutral)", "string"⟩,
   ⟨"people_names", "List of people mentioned", "list"⟩,
   ⟨"places_names", "List of places mentioned", "list"⟩,
   ⟨"other_companies_referred", "List of other companies mentioned", "list"⟩,
   ⟨"related_industries", "List of related industries", "list"⟩,
   ⟨"market_implications", "Market implications of the news", "string"⟩,
   ⟨"confidence_score", "Confidence score of the sentiment", "float"⟩]

/-- Does a field value match a declared schema type? -/
def typeMatches : String → FieldValue → Bool
  | "string", FieldValue.vstr _ => true
  | "list", FieldValue.vlist _ => true
  | "float", FieldValue.vnum _ => true
  | _, _ => false

/-- Modelled from the spec: validation of a single declared field against
the parsed JSON object (the langchain `StructuredOutputParser` is not part
of this repository).  The field must be present and type-coercible; a
missing field or wrong type is a hard error. -/
def parseField (fields : List (String × FieldValue)) (rs : ResponseSchema) :
    Except String (String × FieldValue) :=
  match fields.find? (fun p => p.1 == rs.name) with
  | none => Except.error ("Expected key " ++ rs.name ++ " to be present")
  | some p =>
      if typeMatches rs.type p.2 then Except.ok p
      else Except.error ("Wrong type for key " ++ rs.name)

/-- Modelled from the spec: validate every declared field in order; the
first failure aborts with a hard error. -/
def parseFields (fields : List (String × FieldValue)) :
    List ResponseSchema → Except String (List (String × FieldValue))
  | [] => Except.ok []
  | rs :: rest =>
      match parseField fields rs with
      | Except.error e => Except.error e
      | Except.ok kv =>
          match parseFields fields rest with
          | Except.error e => Except.error e
          | Except.ok kvs => Except.ok (kv :: kvs)

/-- Modelled from the spec: the structured-output parse of the raw LLM
response against `response_schemas`.  Unparsable JSON is a hard error;
otherwise each of the ten declared fields must be present with its
declared type. -/
def output_parser_parse (resp : LLMResponse) :
    Except String (List (String × FieldValue)) :=
  match resp with
  | LLMResponse.unparsable msg => Except.error ("Got invalid JSON object: " ++ msg)
  | LLMResponse.obj fields => parseFields fields response_schemas

/-- Decidable test for one declared field: present and of the declared
type. -/
def checkField (fields : List (String × FieldValue)) (rs : ResponseSchema) : Bool :=
  match fields.find? (fun p => p.1 == rs.name) with
  | none => false
  | some p => typeMatches rs.type p.2

/-- Decidable test: does the response match the declared schema (all ten
fields present with matching types)? -/
def matchesSchema : LLMResponse → Bool
  | LLMResponse.unparsable _ => false
  | LLMResponse.obj fields => response_schemas.all (checkField fields)

/-! ## Tracing spans (`with langfuse.trace(name=...)`)

Each stage body is wrapped in a `with` statement over the tracing client.
The `with` blocks are not themselves guarded by any `try`/`except`, so an
exception raised by the span machinery propagates out of the stage. -/

/-- Behaviour of the span machinery for one `with langfuse.trace(...)`
block: it either works, or raises with some message. -/
inductive SpanOutcome where
  | ok
  | fail (msg : String)
deriving DecidableEq, Repr

/-- `with span: body` where `body` may itself raise: a span failure
raises past the stage; otherwise the body's outcome is returned
unchanged. -/
def withSpanE (span : SpanOutcome) (body : Except String α) : Except String α :=
  match span with
  | SpanOutcome.ok => body
  | SpanOutcome.fail msg => Except.error msg

/-- `with span: body` for a body that cannot raise. -/
def withSpan (span : SpanOutcome) (body : α) : Except String α :=
  withSpanE span (Except.ok body)

/-! ## The three stages (`MarketSentimentAnalyzer`, lines 85-115) -/

/-- `get_stock_code` body (line 87): directory lookup with the `"Unknown"`
sentinel as default. -/
def get_stock_code (company_name : String) : String :=
  dictGetD stock_code_lookup company_name "Unknown"

/-- `get_stock_code` including its tracing span (lines 85-87). -/
def get_stock_code_traced (span : SpanOutcome) (company_name : String) :
    Except String String :=
  withSpan span (get_stock_code company_name)

/-- `fetch_news` body (lines 91-107): the entire `try` block.  Any
exception is swallowed and converted to the string
`"Error fetching news: <message>"`.  On success, an absent or empty
`news` array yields `"No news found."`; otherwise the titles of the
first five items are joined by newline, falling back to
`"No news found."` when the joined string is empty. -/
def fetch_news (outcome : HttpOutcome) : String :=
  match outcome with
  | HttpOutcome.exn e => "Error fetching news: " ++ e
  | HttpOutcome.ok body =>
      let news_items := body.getD []
      if news_items.isEmpty then "No news found."
      else
        let news_text := String.intercalate "\n" ((news_items.take 5).map NewsItem.getTitle)
        if news_text = "" then "No news found." else news_text

/-- `fetch_news` including its tracing span (lines 89-107): the `try`
block sits inside the `with` block, so a span failure is not caught. -/
def fetch_news_traced (span : SpanOutcome) (outcome : HttpOutcome) :
    Except String String :=
  withSpan span (fetch_news outcome)

/-- `analyze_sentiment` body (lines 111-115): render the prompt from the
company name, stock code and news text, send it to the LLM (whose
behaviour is the environment function `llm`), and parse the raw response
with the structured-output parser; parse failures propagate as hard
errors. -/
def analyze_sentiment (llm : String → String → String → LLMResponse)
    (company_name stock_code news : String) :
    Except String (List (String × FieldValue)) :=
  output_parser_parse (llm company_name stock_code news)

/-- `analyze_sentiment` including its tracing span (lines 109-115). -/
def analyze_sentiment_traced (span : SpanOutcome)
    (llm : String → String → String → LLMResponse)
    (company_name stock_code news : String) :
    Except String (List (String × FieldValue)) :=
  withSpanE span (analyze_sentiment llm company_name stock_code news)

/-! ## The orchestrator (`run`, lines 117-128) -/

/-- The external behaviour of one invocation: the three span outcomes,
the HTTP behaviour, and the LLM behaviour as a function of the three
prompt inputs (company name, stock code, news text). -/
structure Env where
  spanStock : SpanOutcome
  spanFetch : SpanOutcome
  spanAnalyze : SpanOutcome
  http : HttpOutcome
  llm : String → String → String → LLMResponse

/-- What `run` returns when it does not raise: either the error object
`{"error": ...}` for an unresolved company, or the parsed sentiment
profile. -/
inductive RunResult where
  | errorObj (msg : String)
  | profile (fields : List (String × FieldValue))
deriving DecidableEq

/-- `run` (lines 117-128): resolve the stock code; if it is the
`"Unknown"` sentinel return the error object, otherwise fetch news and
feed the resulting string — whatever it is — to sentiment analysis,
returning its result.  Exceptions (from a failing span, or a parse
failure in `analyze_sentiment`) propagate to the caller. -/
def run (env : Env) (company_name : String) : Except String RunResult := do
  let stock_code ← get_stock_code_traced env.spanStock company_name
  if stock_code = "Unknown" then
    return RunResult.errorObj ("Stock code for " ++ company_name ++ " not found.")
  let news ← fetch_news_traced env.spanFetch env.http
  let result ← analyze_sentiment_traced env.spanAnalyze env.llm company_name stock_code news
  return RunResult.profile result

/-! ## Helper lemmas -/

/-- Successful bind on `Except` just applies the continuation. -/
lemma ok_bind (a : α) (f : α → Except String β) :
    (Except.ok a : Except String α) >>= f = f a := rfl

/-- `pure` on `Except` is `Except.ok`. -/
lemma pure_eq_ok (a : α) : (pure a : Except String α) = Except.ok a := rfl

/-- Failing bind on `Except` propagates the error. -/
lemma error_bind (e : String) (f : α → Except String β) :
    (Except.error e : Except String α) >>= f = Except.error e := rfl

/-- With a succeeding stock-code span, `run` on an unresolved company
returns the error object, independently of every other part of the
environment. -/
lemma run_unknown_eq (env : Env) (name : String)
    (hu : get_stock_code name = "Unknown") (hs : env.spanStock = SpanOutcome.ok) :
    run env name =
      Except.ok (RunResult.errorObj ("Stock code for " ++ name ++ " not found.")) := by
  simp [run, get_stock_code_traced, withSpan, withSpanE, hs, hu, ok_bind, pure_eq_ok]

/-- With succeeding spans, `run` on a resolved company is the extractor's
result on the company name, the resolved stock code, and the string
returned by `fetch_news` — passed unchanged. -/
lemma run_resolved_eq (env : Env) (name : String)
    (hr : get_stock_code name ≠ "Unknown")
    (h1 : env.spanStock = SpanOutcome.ok) (h2 : env.spanFetch = SpanOutcome.ok)
    (h3 : env.spanAnalyze = SpanOutcome.ok) :
    run env name =
      (analyze_sentiment env.llm name (get_stock_code name) (fetch_news env.http)).map
        RunResult.profile := by
  simp only [run, get_stock_code_traced, fetch_news_traced, analyze_sentiment_traced,
    withSpan, withSpanE, h1, h2, h3, ok_bind]
  cases h : analyze_sentiment env.llm name (get_stock_code name) (fetch_news env.http) with
  | ok p => simp [hr, h, Except.map, ok_bind, pure_eq_ok]
  | error e => simp [hr, h, Except.map, ok_bind, pure_eq_ok, error_bind]

/-- The inner loop of `String.intercalate` never shrinks its
accumulator. -/
lemma intercalate_go_length (s : String) (t : List String) :
    ∀ acc : String, acc.length ≤ (String.intercalate.go acc s t).length := by
  induction t with
  | nil => intro acc; simp [String.intercalate.go]
  | cons a as ih =>
      intro acc
      show acc.length ≤ (String.intercalate.go (acc ++ s ++ a) s as).length
      calc acc.length ≤ (acc ++ s ++ a).length := by
            simp only [String.length_append]; omega
        _ ≤ (String.intercalate.go (acc ++ s ++ a) s as).length := ih (acc ++ s ++ a)

/-- Joining at least two strings with `"\n"` never yields the empty
string: the separator alone contributes a character. -/
lemma intercalate_cons_cons_ne_empty (a b : String) (t : List String) :
    String.intercalate "\n" (a :: b :: t) ≠ "" := by
  intro h
  have h1 : 1 ≤ (String.intercalate "\n" (a :: b :: t)).length := by
    show 1 ≤ (String.intercalate.go a "\n" (b :: t)).length
    calc 1 ≤ (a ++ "\n" ++ b).length := by
          have hn : ("\n" : String).length = 1 := rfl
          simp only [String.length_append]; omega
      _ ≤ (String.intercalate.go (a ++ "\n" ++ b) "\n" t).length :=
          intercalate_go_length "\n" t (a ++ "\n" ++ b)
  rw [h] at h1
  simp at h1

/-- The inner loop of `String.intercalate` over `m` empty strings appends
exactly `m` newline characters to its accumulator. -/
lemma intercalate_go_replicate_empty (m : Nat) :
    ∀ acc : String, String.intercalate.go acc "\n" (List.replicate m "") =
      acc ++ String.mk (List.replicate m '\n') := by
  induction m with
  | zero =>
      intro acc
      apply String.ext
      simp [String.intercalate.go]
  | succ m ih =>
      intro acc
      show String.intercalate.go acc "\n" ("" :: List.replicate m "") = _
      show String.intercalate.go (acc ++ "\n" ++ "") "\n" (List.replicate m "") = _
      rw [ih (acc ++ "\n" ++ "")]
      apply String.ext
      simp [List.replicate_succ]

/-- Joining `k ≥ 1` empty strings with `"\n"` yields exactly `k - 1`
newline characters. -/
lemma intercalate_replicate_empty (k : Nat) (hk : 1 ≤ k) :
    String.intercalate "\n" (List.replicate k "") =
      String.mk (List.replicate (k - 1) '\n') := by
  obtain ⟨m, rfl⟩ : ∃ m, k = m + 1 := ⟨k - 1, by omega⟩
  show String.intercalate "\n" ("" :: List.replicate m "") = _
  show String.intercalate.go "" "\n" (List.replicate m "") = _
  rw [intercalate_go_replicate_empty m ""]
  apply String.ext
  simp

/-- A successfully validated field carries exactly the declared field
name. -/
lemma parseField_ok_name (fields : List (String × FieldValue)) (rs : ResponseSchema)
    (kv : String × FieldValue) (h : parseField fields rs = Except.ok kv) :
    kv.1 = rs.name := by
  unfold parseField at h
  cases hfind : fields.find? (fun p => p.1 == rs.name) with
  | none => rw [hfind] at h; exact absurd h (by simp)
  | some p =>
      rw [hfind] at h
      dsimp only at h
      by_cases ht : typeMatches rs.type p.2 = true
      · rw [if_pos ht] at h
        cases h
        have := List.find?_some hfind
        exact beq_iff_eq.mp this
      · rw [if_neg ht] at h
        exact absurd h (by simp)

/-- A field that fails the presence-and-type check makes `parseField`
fail. -/
lemma parseField_error_of_check_false (fields : List (String × FieldValue))
    (rs : ResponseSchema) (h : checkField fields rs = false) :
    ∃ e, parseField fields rs = Except.error e := by
  unfold checkField at h
  unfold parseField
  cases hfind : fields.find? (fun p => p.1 == rs.name) with
  | none => exact ⟨_, rfl⟩
  | some p =>
      rw [hfind] at h
      dsimp only at h ⊢
      rw [if_neg (by simp [h])]
      exact ⟨_, rfl⟩

/-- A field that passes the presence-and-type check makes `parseField`
succeed. -/
lemma parseField_ok_of_check_true (fields : List (String × FieldValue))
    (rs : ResponseSchema) (h : checkField fields rs = true) :
    ∃ kv, parseField fields rs = Except.ok kv := by
  unfold checkField at h
  unfold parseField
  cases hfind : fields.find? (fun p => p.1 == rs.name) with
  | none => rw [hfind] at h; exact absurd h (by simp)
  | some p =>
      rw [hfind] at h
      dsimp only at h ⊢
      rw [if_pos h]
      exact ⟨p, rfl⟩

/-- When validation of a schema list succeeds, the output lists exactly
the declared field names, in declaration order. -/
lemma parseFields_ok_keys (fields : List (String × FieldValue)) :
    ∀ (schemas : List ResponseSchema) (out : List (String × FieldValue)),
      parseFields fields schemas = Except.ok out →
      out.map Prod.fst = schemas.map ResponseSchema.name := by
  intro schemas
  induction schemas with
  | nil =>
      intro out h
      unfold parseFields at h
      cases h
      rfl
  | cons rs rest ih =>
      intro out h
      unfold parseFields at h
      cases hf : parseField fields rs with
      | error e => rw [hf] at h; exact absurd h (by simp)
      | ok kv =>
          rw [hf] at h
          cases hr : parseFields fields rest with
          | error e => rw [hr] at h; exact absurd h (by simp)
          | ok kvs =>
              rw [hr] at h
              cases h
              simp only [List.map]
              rw [parseField_ok_name fields rs kv hf, ih kvs hr]

/-- Validation of a schema list succeeds exactly when every schema entry
passes the presence-and-type check. -/
lemma parseFields_ok_iff_all (fields : List (String × FieldValue)) :
    ∀ schemas : List ResponseSchema,
      (∃ out, parseFields fields schemas = Except.ok out) ↔
        schemas.all (checkField fields) = true := by
  intro schemas
  induction schemas with
  | nil => simp [parseFields]
  | cons rs rest ih =>
      simp only [List.all_cons, Bool.and_eq_true]
      constructor
      · rintro ⟨out, h⟩
        unfold parseFields at h
        cases hf : parseField fields rs with
        | error e => rw [hf] at h; exact absurd h (by simp)
        | ok kv =>
            rw [hf] at h
            cases hr : parseFields fields rest with
            | error e => rw [hr] at h; exact absurd h (by simp)
            | ok kvs =>
                refine ⟨?_, ih.mp ⟨kvs, hr⟩⟩
                by_contra hc
                obtain ⟨e, he⟩ :=
                  parseField_error_of_check_false fields rs (by
                    cases hcv : checkField fields rs
                    · rfl
                    · exact absurd hcv hc)
                rw [he] at hf
                exact absurd hf (by simp)
      · rintro ⟨h1, h2⟩
        obtain ⟨kv, hkv⟩ := parseField_ok_of_check_true fields rs h1
        obtain ⟨kvs, hkvs⟩ := ih.mpr h2
        refine ⟨kv :: kvs, ?_⟩
        unfold parseFields
        rw [hkv, hkvs]

/-- Validation that does not succeed produces a hard error (on `Except`
there is no third possibility). -/
lemma parseFields_error_of_not_all (fields : List (String × FieldValue))
    (schemas : List ResponseSchema) (h : schemas.all (checkField fields) = false) :
    ∃ e, parseFields fields schemas = Except.error e := by
  cases hp : parseFields fields schemas with
  | ok out =>
      have := (parseFields_ok_iff_all fields schemas).mp ⟨out, hp⟩
      rw [this] at h
      exact absurd h (by simp)
  | error e => exact ⟨e, rfl⟩

/-! ## Claims -/

/-- C4: `get_stock_code` returns the configured ticker for each of the
three directory keys and the `"Unknown"` sentinel for every other name
(the table is case-sensitive, so case variants fall in the second case);
as a plain function of its argument the lookup is pure by construction. -/
theorem stock_code_lookup_spec :
    (get_stock_code "Apple Inc" = "AAPL" ∧ get_stock_code "Microsoft" = "MSFT" ∧
      get_stock_code "Google" = "GOOGL") ∧
    ∀ name, name ≠ "Apple Inc" → name ≠ "Microsoft" → name ≠ "Google" →
      get_stock_code name = "Unknown" := by
  refine ⟨⟨rfl, rfl, rfl⟩, ?_⟩
  intro name h1 h2 h3
  have e1 : ("Apple Inc" == name) = false := beq_eq_false_iff_ne.mpr (Ne.symm h1)
  have e2 : ("Microsoft" == name) = false := beq_eq_false_iff_ne.mpr (Ne.symm h2)
  have e3 : ("Google" == name) = false := beq_eq_false_iff_ne.mpr (Ne.symm h3)
  simp [get_stock_code, dictGetD, stock_code_lookup, List.find?, e1, e2, e3]

/-- C4 witness: a case variant of a configured name maps to the sentinel. -/
theorem stock_code_lookup_spec_witness :
    get_stock_code "microsoft" = "Unknown" :=
  stock_code_lookup_spec.2 "microsoft" (by decide) (by decide) (by decide)

/-- C1: whenever the directory lookup returns the `"Unknown"` sentinel
(and the tracing machinery works), `run` returns exactly the error object
`{"error": "Stock code for <name> not found."}`, and the result is
independent of the HTTP behaviour, the LLM behaviour and the remaining
spans — no news fetch and no LLM call is performed. -/
theorem run_unresolved_company (env env2 : Env) (name : String)
    (hu : get_stock_code name = "Unknown")
    (hs : env.spanStock = SpanOutcome.ok) (hs2 : env2.spanStock = SpanOutcome.ok) :
    run env name =
      Except.ok (RunResult.errorObj ("Stock code for " ++ name ++ " not found.")) ∧
    run env name = run env2 name :=
  ⟨run_unknown_eq env name hu hs,
   (run_unknown_eq env name hu hs).trans (run_unknown_eq env2 name hu hs2).symm⟩

/-- C1 witness: the end-to-end example `company="Unknown Corp"`, with an
environment whose HTTP request would fail and whose LLM response would be
unparsable — neither matters. -/
theorem run_unresolved_company_witness :
    run ⟨SpanOutcome.ok, SpanOutcome.ok, SpanOutcome.ok, HttpOutcome.exn "net down",
        fun _ _ _ => LLMResponse.unparsable "junk"⟩ "Unknown Corp" =
      Except.ok (RunResult.errorObj "Stock code for Unknown Corp not found.") :=
  (run_unresolved_company
    ⟨SpanOutcome.ok, SpanOutcome.ok, SpanOutcome.ok, HttpOutcome.exn "net down",
        fun _ _ _ => LLMResponse.unparsable "junk"⟩
    ⟨SpanOutcome.ok, SpanOutcome.ok, SpanOutcome.ok, HttpOutcome.exn "net down",
        fun _ _ _ => LLMResponse.unparsable "junk"⟩
    "Unknown Corp" (by decide) rfl rfl).1

/-- C2: whenever the lookup resolves to a ticker other than `"Unknown"`
(and the tracing machinery works), `run` always proceeds from fetching
news to sentiment extraction: the string returned by `fetch_news` —
including an `"Error fetching news: ..."` failure string — is passed
unchanged as the news input to `analyze_sentiment`, and `run` returns the
extractor's result. -/
theorem run_resolved_feeds_news_to_extractor (env : Env) (name : String)
    (hr : get_stock_code name ≠ "Unknown")
    (h1 : env.spanStock = SpanOutcome.ok) (h2 : env.spanFetch = SpanOutcome.ok)
    (h3 : env.spanAnalyze = SpanOutcome.ok) :
    run env name =
      (analyze_sentiment env.llm name (get_stock_code name) (fetch_news env.http)).map
        RunResult.profile ∧
    ∀ msg, env.http = HttpOutcome.exn msg →
      run env name =
        (analyze_sentiment env.llm name (get_stock_code name)
          ("Error fetching news: " ++ msg)).map RunResult.profile := by
  refine ⟨run_resolved_eq env name hr h1 h2 h3, ?_⟩
  intro msg hm
  rw [run_resolved_eq env name hr h1 h2 h3, hm]
  rfl

/-- C2 witness: `company="Microsoft"` with a failing HTTP request and an
unparsable LLM response: the fetch failure flows on as a string and the
extractor's hard error is what `run` returns. -/
theorem run_resolved_feeds_news_to_extractor_witness :
    run ⟨SpanOutcome.ok, SpanOutcome.ok, SpanOutcome.ok, HttpOutcome.exn "net down",
        fun _ _ _ => LLMResponse.unparsable "junk"⟩ "Microsoft" =
      Except.error "Got invalid JSON object: junk" := by
  have h := run_resolved_feeds_news_to_extractor
    ⟨SpanOutcome.ok, SpanOutcome.ok, SpanOutcome.ok, HttpOutcome.exn "net down",
        fun _ _ _ => LLMResponse.unparsable "junk"⟩
    "Microsoft" (by decide) rfl rfl rfl
  rw [h.1]
  rfl

/-- C3: for every input ticker and every failing behaviour of the HTTP
request (network error, non-2xx status, malformed JSON body — all of
which raise inside the `try` block), `fetch_news` does not raise: it
returns the string `"Error fetching news: "` followed by the failure
message. -/
theorem fetch_news_failure_is_string (msg : String) :
    fetch_news (HttpOutcome.exn msg) = "Error fetching news: " ++ msg ∧
    ∃ rest, fetch_news (HttpOutcome.exn msg) = "Error fetching news: " ++ rest := by
  exact ⟨rfl, msg, rfl⟩

/-- C5: for every successful HTTP response whose `news` array holds five
or more items, `fetch_news` returns exactly the `title` fields of the
first five items joined by newlines, in response order; items past the
fifth never contribute (the right-hand side depends only on
`news.take 5`). -/
theorem fetch_news_five_titles (news : List NewsItem) (h5 : 5 ≤ news.length) :
    fetch_news (HttpOutcome.ok (some news)) =
      String.intercalate "\n" ((news.take 5).map NewsItem.getTitle) := by
  obtain ⟨a, t1, rfl⟩ : ∃ a t, news = a :: t := by
    cases news with
    | nil => simp at h5
    | cons a t => exact ⟨a, t, rfl⟩
  obtain ⟨b, t2, rfl⟩ : ∃ b t, t1 = b :: t := by
    cases t1 with
    | nil => simp at h5
    | cons b t => exact ⟨b, t, rfl⟩
  have htake : (a :: b :: t2).take 5 = a :: b :: t2.take 3 := rfl
  have hne : String.intercalate "\n" (((a :: b :: t2).take 5).map NewsItem.getTitle) ≠ "" := by
    rw [htake]
    exact intercalate_cons_cons_ne_empty _ _ _
  show (if (a :: b :: t2).isEmpty then "No news found."
        else
          let news_text :=
            String.intercalate "\n" (((a :: b :: t2).take 5).map NewsItem.getTitle)
          if news_text = "" then "No news found." else news_text) = _
  simp only [List.isEmpty_cons, if_neg, Bool.false_eq_true, if_false]
  exact if_neg hne

/-- C5 witness: six items; the sixth title is dropped. -/
theorem fetch_news_five_titles_witness :
    fetch_news (HttpOutcome.ok (some
      [⟨some "t1"⟩, ⟨some "t2"⟩, ⟨some "t3"⟩, ⟨some "t4"⟩, ⟨some "t5"⟩, ⟨some "t6"⟩])) =
      "t1\nt2\nt3\nt4\nt5" := by
  rw [fetch_news_five_titles
    [⟨some "t1"⟩, ⟨some "t2"⟩, ⟨some "t3"⟩, ⟨some "t4"⟩, ⟨some "t5"⟩, ⟨some "t6"⟩]
    (by decide)]
  rfl

/-- C10: for every successful response whose `news` items all lack a
non-empty `title`: with exactly one item the empty-join fallback fires
and `fetch_news` returns `"No news found."`, but with two or more items
considered the join of the empty titles is a non-empty string of
newlines, so the fallback does not fire and `fetch_news` returns a
string consisting only of newline characters. -/
theorem fetch_news_titleless_items (items : List NewsItem)
    (hall : ∀ i ∈ items, NewsItem.getTitle i = "") :
    (items.length = 1 → fetch_news (HttpOutcome.ok (some items)) = "No news found.") ∧
    (2 ≤ (items.take 5).length →
      fetch_news (HttpOutcome.ok (some items)) ≠ "No news found." ∧
      (fetch_news (HttpOutcome.ok (some items))).data =
        List.replicate ((items.take 5).length - 1) '\n') := by
  constructor
  · intro h1
    obtain ⟨i, rfl⟩ : ∃ i, items = [i] := by
      cases items with
      | nil => simp at h1
      | cons a t =>
          cases t with
          | nil => exact ⟨a, rfl⟩
          | cons b u => simp at h1
    have hi : NewsItem.getTitle i = "" := hall i (by simp)
    show (if ([i] : List NewsItem).isEmpty then "No news found."
          else
            let news_text := String.intercalate "\n" ((([i] : List NewsItem).take 5).map NewsItem.getTitle)
            if news_text = "" then "No news found." else news_text) = _
    simp [hi, String.intercalate, String.intercalate.go]
  · intro h2
    have hmap : (items.take 5).map NewsItem.getTitle =
        List.replicate ((items.take 5).length) "" := by
      have hlen : ((items.take 5).map NewsItem.getTitle).length = (items.take 5).length :=
        List.length_map _ _
      rw [← hlen]
      apply List.eq_replicate_of_mem
      intro b hb
      obtain ⟨i, hi, rfl⟩ := List.mem_map.mp hb
      exact hall i (List.mem_of_mem_take hi)
    have hk1 : 1 ≤ (items.take 5).length := by omega
    have hjoin : String.intercalate "\n" ((items.take 5).map NewsItem.getTitle) =
        String.mk (List.replicate ((items.take 5).length - 1) '\n') := by
      rw [hmap]; exact intercalate_replicate_empty _ hk1
    have hnil : items.isEmpty = false := by
      cases items with
      | nil => simp at h2
      | cons a t => rfl
    have hjne : String.intercalate "\n" ((items.take 5).map NewsItem.getTitle) ≠ "" := by
      rw [hjoin]
      intro h
      have hlen := congrArg String.length h
      rw [String.length_mk, List.length_replicate, String.length_empty] at hlen
      omega
    have heval : fetch_news (HttpOutcome.ok (some items)) =
        String.intercalate "\n" ((items.take 5).map NewsItem.getTitle) := by
      show (if items.isEmpty then "No news found."
            else
              let news_text := String.intercalate "\n" ((items.take 5).map NewsItem.getTitle)
              if news_text = "" then "No news found." else news_text) = _
      rw [hnil]
      simp only [Bool.false_eq_true, if_false]
      exact if_neg hjne
    constructor
    · rw [heval, hjoin]
      intro h
      have hlen := congrArg String.length h
      rw [String.length_mk, List.length_replicate] at hlen
      have h14 : ("No news found." : String).length = 14 := by decide
      rw [h14] at hlen
      have hk5 : (items.take 5).length ≤ 5 := List.length_take_le 5 items
      omega
    · rw [heval, hjoin]

/-- C10 witness: two titleless items (one missing the field, one with an
empty title) joined to the single-newline string. -/
theorem fetch_news_titleless_items_witness :
    (2 ≤ (([⟨none⟩, ⟨some ""⟩] : List NewsItem).take 5).length) ∧
    fetch_news (HttpOutcome.ok (some [⟨none⟩, ⟨some ""⟩])) ≠ "No news found." ∧
    (fetch_news (HttpOutcome.ok (some [⟨none⟩, ⟨some ""⟩]))).data = ['\n'] := by
  have h := (fetch_news_titleless_items [⟨none⟩, ⟨some ""⟩] (by decide)).2 (by decide)
  exact ⟨by decide, h.1, by simpa using h.2⟩

/-- C6: a successful HTTP response whose JSON body lacks a `news` key
(`none`) or whose `news` array is empty (`some []`) makes `fetch_news`
return exactly `"No news found."`. -/
theorem fetch_news_empty_news (body : Option (List NewsItem)) :
    fetch_news (HttpOutcome.ok none) = "No news found." ∧
    fetch_news (HttpOutcome.ok (some [])) = "No news found." ∧
    (body = none ∨ body = some [] → fetch_news (HttpOutcome.ok body) = "No news found.") := by
  refine ⟨rfl, rfl, ?_⟩
  rintro (rfl | rfl) <;> rfl

/-- C6 witness: evaluation at the two concrete bodies. -/
theorem fetch_news_empty_news_witness :
    fetch_news (HttpOutcome.ok (some [])) = "No news found." :=
  (fetch_news_empty_news (some [])).2.2 (Or.inr rfl)

/-- C7: a response that does not match the declared 10-field schema
(unparsable JSON, missing field, or wrong type) makes the
structured-output parse fail with a hard error, which `run` propagates
unchanged to its caller; a response that matches the schema yields a
result carrying exactly the ten declared fields — never a partial
result. -/
theorem extract_schema_validation (resp : LLMResponse) :
    (matchesSchema resp = false → ∃ e, output_parser_parse resp = Except.error e) ∧
    (matchesSchema resp = true →
      ∃ out, output_parser_parse resp = Except.ok out ∧
        out.map Prod.fst = response_schemas.map ResponseSchema.name ∧ out.length = 10) ∧
    (∀ (env : Env) (name e : String), env.spanStock = SpanOutcome.ok →
      env.spanFetch = SpanOutcome.ok → env.spanAnalyze = SpanOutcome.ok →
      get_stock_code name ≠ "Unknown" →
      env.llm name (get_stock_code name) (fetch_news env.http) = resp →
      output_parser_parse resp = Except.error e →
      run env name = Except.error e) := by
  refine ⟨?_, ?_, ?_⟩
  · intro hm
    cases resp with
    | unparsable msg => exact ⟨_, rfl⟩
    | obj fields =>
        simp only [matchesSchema] at hm
        exact parseFields_error_of_not_all fields response_schemas hm
  · intro hm
    cases resp with
    | unparsable msg => simp [matchesSchema] at hm
    | obj fields =>
        simp only [matchesSchema] at hm
        obtain ⟨out, hout⟩ := (parseFields_ok_iff_all fields response_schemas).mpr hm
        have hkeys := parseFields_ok_keys fields response_schemas out hout
        refine ⟨out, hout, hkeys, ?_⟩
        have hlen := congrArg List.length hkeys
        simpa using hlen
  · intro env name e h1 h2 h3 hr hllm hperr
    have ha : analyze_sentiment env.llm name (get_stock_code name) (fetch_news env.http) =
        Except.error e := by
      unfold analyze_sentiment
      rw [hllm, hperr]
    rw [run_resolved_eq env name hr h1 h2 h3, ha]
    rfl

/-- C7 witness: the empty JSON object misses every declared field and is
rejected with a hard error. -/
theorem extract_schema_validation_witness :
    matchesSchema (LLMResponse.obj []) = false ∧
    (∃ e, output_parser_parse (LLMResponse.obj []) = Except.error e) :=
  ⟨by decide, (extract_schema_validation (LLMResponse.obj [])).1 (by decide)⟩

/-- A schema-conforming LLM response object whose `sentiment` field holds
the given string: all ten declared fields are present with their declared
primitive types. -/
def wellFormedFields (s : String) : List (String × FieldValue) :=
  [("company_name", FieldValue.vstr "Microsoft"),
   ("stock_code", FieldValue.vstr "MSFT"),
   ("newsdesc", FieldValue.vstr "Quarterly results announced."),
   ("sentiment", FieldValue.vstr s),
   ("people_names", FieldValue.vlist []),
   ("places_names", FieldValue.vlist []),
   ("other_companies_referred", FieldValue.vlist []),
   ("related_industries", FieldValue.vlist []),
   ("market_implications", FieldValue.vstr "None."),
   ("confidence_score", FieldValue.vnum 1)]

/-- C8 counterexample: a well-formed response whose `sentiment` is the
string `"Bullish"` — none of Positive/Negative/Neutral — is accepted by
the extraction, and the returned profile carries that sentiment. -/
theorem sentiment_enum_not_enforced_cex :
    output_parser_parse (LLMResponse.obj (wellFormedFields "Bullish")) =
      Except.ok (wellFormedFields "Bullish") ∧
    ("sentiment", FieldValue.vstr "Bullish") ∈ wellFormedFields "Bullish" ∧
    "Bullish" ≠ "Positive" ∧ "Bullish" ≠ "Negative" ∧ "Bullish" ≠ "Neutral" := by
  refine ⟨rfl, by simp [wellFormedFields], by decide, by decide, by decide⟩

/-- C8 (amended): the declared schema types `sentiment` as a plain
string — the Positive/Negative/Neutral classification lives only in the
field's prose description (prompt guidance) — so extraction succeeds
with any string whatsoever as the sentiment of the returned profile. -/
theorem sentiment_field_not_constrained (s : String) :
    (response_schemas.find? (fun rs => rs.name == "sentiment")).map ResponseSchema.type =
      some "string" ∧
    output_parser_parse (LLMResponse.obj (wellFormedFields s)) =
      Except.ok (wellFormedFields s) ∧
    ("sentiment", FieldValue.vstr s) ∈ wellFormedFields s := by
  refine ⟨rfl, rfl, by simp [wellFormedFields]⟩

/-- C9 counterexample: a failure of the span machinery wrapping the
stock-code stage changes that stage's outcome — the stage raises instead
of returning the ticker, because the `with` block is unguarded. -/
theorem span_failure_changes_outcome_cex :
    get_stock_code_traced (SpanOutcome.fail "tracing down") "Microsoft" =
      Except.error "tracing down" ∧
    get_stock_code_traced SpanOutcome.ok "Microsoft" = Except.ok "MSFT" ∧
    get_stock_code_traced (SpanOutcome.fail "tracing down") "Microsoft" ≠
      get_stock_code_traced SpanOutcome.ok "Microsoft" := by
  refine ⟨rfl, rfl, fun h => ?_⟩
  rw [show get_stock_code_traced (SpanOutcome.fail "tracing down") "Microsoft" =
        Except.error "tracing down" from rfl,
      show get_stock_code_traced SpanOutcome.ok "Microsoft" = Except.ok "MSFT" from rfl] at h
  exact absurd h (by simp)

/-- C9 (amended): when the span machinery succeeds, the tracing wrapper
is transparent — each stage returns exactly its untraced result, so a
working collector never changes the pipeline outcome; but the stages do
not guard the span machinery, so a span failure raises past the stage
(and past `run`): the fire-and-forget guarantee rests on the tracing SDK
never raising, not on this code. -/
theorem spans_transparent_on_success :
    (∀ c, get_stock_code_traced SpanOutcome.ok c = Except.ok (get_stock_code c)) ∧
    (∀ o, fetch_news_traced SpanOutcome.ok o = Except.ok (fetch_news o)) ∧
    (∀ llmf c s n, analyze_sentiment_traced SpanOutcome.ok llmf c s n =
      analyze_sentiment llmf c s n) ∧
    (∀ msg c, get_stock_code_traced (SpanOutcome.fail msg) c = Except.error msg) ∧
    (∀ msg o, fetch_news_traced (SpanOutcome.fail msg) o = Except.error msg) ∧
    (∀ msg llmf c s n, analyze_sentiment_traced (SpanOutcome.fail msg) llmf c s n =
      Except.error msg) ∧
    (∀ (env : Env) (c msg : String), env.spanStock = SpanOutcome.fail msg →
      run env c = Except.error msg) := by
  refine ⟨fun c => rfl, fun o => rfl, fun llmf c s n => rfl, fun msg c => rfl,
    fun msg o => rfl, fun msg llmf c s n => rfl, ?_⟩
  intro env c msg h
  simp [run, get_stock_code_traced, withSpan, withSpanE, h, error_bind]

/-- C9 witness: a concrete invocation whose stock-code span fails makes
`run` raise with the span's error. -/
theorem spans_transparent_on_success_witness :
    run ⟨SpanOutcome.fail "boom", SpanOutcome.ok, SpanOutcome.ok, HttpOutcome.exn "x",
        fun _ _ _ => LLMResponse.unparsable "y"⟩ "Microsoft" = Except.error "boom" :=
  spans_transparent_on_success.2.2.2.2.2.2
    ⟨SpanOutcome.fail "boom", SpanOutcome.ok, SpanOutcome.ok, HttpOutcome.exn "x",
        fun _ _ _ => LLMResponse.unparsable "y"⟩ "Microsoft" "boom" rfl

end MarketSentiment
